import Mathlib

/-!
Verification of the AutoDocs documentation-generation pipeline.

The repository contains several revisions of the same three units, glued
together in its source files:

* the API route `POST /api/generate` — a legacy revision (openai v3 client,
  ad-hoc field checks, `route.ts` first part) and a zod-validated revision
  (`unnamed/part_000` first part);
* the client page orchestration loop `onSubmit` — revision A
  (`route.ts` second part, lines 159–197: per-type try/catch, progress
  counted on success only, `isZipReady` from the success count), revision B
  (`page.tsx` first part, lines 92–131: fixed eight-type list, stops at the
  first failure via `hasError`/`break`), and revision C (`page.tsx` second
  part, lines 342–393: selection filter, progress counted on every attempt,
  `isZipReady := !hasErrors`, 90-second client-side abort timeout);
* the ZIP bundle assembler (`createKnowledgeBaseZip` in the `zip.ts` part).

Each revision is embedded below as a pure function; the outcome of one
generation call is abstracted as an oracle `DocType → Except String String`
(what the client-side `generateDocument` returns), and the upstream
chat-completion call of the route handlers as an `UpstreamOutcome` value.
The prompt template texts are not observed by any property proved here, so
the prompt registry is embedded at the granularity of its key set.
-/

/-- The enumerated document types (the nine-key revisions:
`unnamed/part_000` zod enum, `route.ts` second part `DOCUMENT_TYPES`). -/
inductive DocType where
  | prd
  | appFlow
  | techStack
  | frontend
  | backend
  | cursorRules
  | implementation
  | bestPractices
  | promptGuide
deriving DecidableEq, Repr

/-- The string key of a document type, as used in request bodies and maps. -/
def docKey : DocType → String
  | .prd => "prd"
  | .appFlow => "appFlow"
  | .techStack => "techStack"
  | .frontend => "frontend"
  | .backend => "backend"
  | .cursorRules => "cursorRules"
  | .implementation => "implementation"
  | .bestPractices => "bestPractices"
  | .promptGuide => "promptGuide"

/-- Registry order of the nine document types (`DOCUMENT_TYPES` in
`unnamed/part_000` and in the `route.ts` second part). -/
def allDocTypes : List DocType :=
  [.prd, .appFlow, .techStack, .frontend, .backend, .cursorRules,
   .implementation, .bestPractices, .promptGuide]

/-- The eight-type list of the legacy page revision (`page.tsx` first part,
`DOCUMENT_TYPES`, no `promptGuide`). -/
def documentTypesB : List DocType :=
  [.prd, .appFlow, .techStack, .frontend, .backend, .cursorRules,
   .implementation, .bestPractices]

/-- The enumerated project types of the zod schema. -/
inductive ProjType where
  | web
  | mobile
  | desktop
  | ai
  | other
deriving DecidableEq, Repr

/-- Parse a raw `projectType` string against the zod enum. -/
def parseProjType : String → Option ProjType
  | "web" => some .web
  | "mobile" => some .mobile
  | "desktop" => some .desktop
  | "ai" => some .ai
  | "other" => some .other
  | _ => none

/-- Parse a raw `documentType` string against the nine-key enum; unknown
identifiers yield `none`. -/
def parseDocType : String → Option DocType
  | "prd" => some .prd
  | "appFlow" => some .appFlow
  | "techStack" => some .techStack
  | "frontend" => some .frontend
  | "backend" => some .backend
  | "cursorRules" => some .cursorRules
  | "implementation" => some .implementation
  | "bestPractices" => some .bestPractices
  | "promptGuide" => some .promptGuide
  | _ => none

/-- JavaScript truthiness of an optional string: `undefined` and the empty
string are falsy. -/
def truthy : Option String → Bool
  | some s => !(s == "")
  | none => false

/-- Raw JSON body of the zod-validated route (`unnamed/part_000`):
all fields optional before validation. -/
structure GenBody where
  description : Option String
  projectType : Option String
  documentType : Option String

/-- Raw JSON body of the legacy route (`route.ts` first part), which
destructures `description`, `type`, `documentType`. -/
structure OldRouteBody where
  description : Option String
  type : Option String
  documentType : Option String

/-- Result of `projectSchema.parse` in `unnamed/part_000`. -/
structure ValidatedReq where
  description : String
  projectType : ProjType
  documentType : DocType

/-- `projectSchema.parse`: description at least 10 characters, both enums
must match; any violation throws `ZodError` (modelled as `none`). -/
def zodParse (b : GenBody) : Option ValidatedReq :=
  match b.description, b.projectType, b.documentType with
  | some d, some p, some t =>
    if 10 ≤ d.length then
      match parseProjType p, parseDocType t with
      | some pt, some dt => some ⟨d, pt, dt⟩
      | _, _ => none
    else none
  | _, _, _ => none

/-- Outcome of the one upstream chat-completion call a route handler makes:
the API responded (with `choices[0]?.message?.content` as an optional
string), threw an `OpenAI.APIError` (optional HTTP status plus message), or
threw some other error. -/
inductive UpstreamOutcome where
  | ok (content : Option String)
  | apiError (status : Option Nat) (msg : String)
  | otherError (msg : String)

/-- HTTP response produced by a route handler, together with the number of
upstream calls the handler issued while producing it. -/
structure RouteResult where
  status : Nat
  error : Option String
  message : Option String
  content : Option String
  upstreamCalls : Nat
deriving DecidableEq, Repr

/-- `response.ok` of the Fetch API: status in the 2xx range. -/
def RouteResult.ok (r : RouteResult) : Bool :=
  decide (200 ≤ r.status ∧ r.status < 300)

/-- The zod-validated route handler (`unnamed/part_000` first part, `POST`):
zod validation, then the `OPENAI_API_KEY` guard, then the
`DOCUMENT_PROMPTS` lookup (total over the nine-key enum, so the
`Invalid document type` branch is unreachable after zod narrowing), then the
upstream call; its result `content` or the empty string fallback is returned with
status 200, `OpenAI.APIError` is echoed with its own status (default 500),
and any other throw yields 500. -/
def genRoutePOST (apiKey : Option String) (body : GenBody)
    (upstream : UpstreamOutcome) : RouteResult :=
  match zodParse body with
  | none =>
    { status := 400, error := some "Invalid request data", message := none,
      content := none, upstreamCalls := 0 }
  | some v =>
    if truthy apiKey = false then
      { status := 500, error := some "OpenAI API key is not configured",
        message := none, content := none, upstreamCalls := 0 }
    else if v.documentType ∈ allDocTypes then
      match upstream with
      | .ok c =>
        { status := 200, error := none, message := none,
          content := some (c.getD ""), upstreamCalls := 1 }
      | .apiError st m =>
        { status := st.getD 500, error := some "OpenAI API error",
          message := some m, content := none, upstreamCalls := 1 }
      | .otherError m =>
        { status := 500, error := some "Internal server error",
          message := some m, content := none, upstreamCalls := 1 }
    else
      { status := 400,
        error := some ("Invalid document type: " ++ docKey v.documentType),
        message := none, content := none, upstreamCalls := 0 }

/-- The legacy route handler (`route.ts` first part, `POST`): only a
truthiness check on the three fields, no credential guard (the key is read
once at module load and never checked, so the behaviour of the handler does not
depend on it), then `DOCUMENT_PROMPTS[documentType as DocumentType](...)`.
Modelled from the spec: the registry module `app/types/documents` is not in
the source; the spec fixes the enumerated set to the same nine keys, so the
lookup succeeds exactly on those, and on any other key the indexing yields
`undefined`, the call throws, and the catch-all returns a generic 500
before any upstream call. On an upstream response, empty content
(`!content`) yields 500 `Failed to generate content`; any upstream throw
yields 500 `Failed to generate document`. -/
def oldRoutePOST (_apiKey : Option String) (body : OldRouteBody)
    (upstream : UpstreamOutcome) : RouteResult :=
  if (truthy body.description && truthy body.type
      && truthy body.documentType) = false then
    { status := 400, error := some "Missing required fields", message := none,
      content := none, upstreamCalls := 0 }
  else
    match parseDocType (body.documentType.getD "") with
    | none =>
      { status := 500, error := some "Failed to generate document",
        message := none, content := none, upstreamCalls := 0 }
    | some _ =>
      match upstream with
      | .ok c =>
        if truthy c = false then
          { status := 500, error := some "Failed to generate content",
            message := none, content := none, upstreamCalls := 1 }
        else
          { status := 200, error := none, message := none, content := c,
            upstreamCalls := 1 }
      | .apiError _ _ =>
        { status := 500, error := some "Failed to generate document",
          message := none, content := none, upstreamCalls := 1 }
      | .otherError _ =>
        { status := 500, error := some "Failed to generate document",
          message := none, content := none, upstreamCalls := 1 }

/-- The client-side `generateDocument` of the selection-enabled page
(`page.tsx` second part, lines 299–340): a 90-second `AbortController`
timeout around the fetch (`timedOut` says whether it fired, in which case
the abort is caught and rethrown as `Request timed out. Please try
again.`); otherwise a non-ok response throws
`data.message`, else `data.error`, else `Failed to generate document`, an ok
response without truthy `content` throws
`No content received from API`, and otherwise the content is returned. -/
def generateDocumentC (timedOut : Bool) (resp : RouteResult) :
    Except String String :=
  if timedOut then
    .error "Request timed out. Please try again."
  else if resp.ok = false then
    .error (if truthy resp.message then resp.message.getD ""
            else if truthy resp.error then resp.error.getD ""
            else "Failed to generate document")
  else if truthy resp.content = false then
    .error "No content received from API"
  else
    .ok (resp.content.getD "")

/-- JavaScript object property assignment on a string-keyed record held as
an association list: overwrite in place if the key exists, otherwise
append. -/
def objInsert (m : List (DocType × String)) (k : DocType) (v : String) :
    List (DocType × String) :=
  if k ∈ m.map Prod.fst then
    m.map (fun p => if p.1 = k then (k, v) else p)
  else
    m ++ [(k, v)]

/-- Session state of orchestration loop A (`route.ts` second part,
`onSubmit`): success map, error map, success counter, current progress
value, the ordered list of every progress value ever published, and the
ordered list of document types the loop invoked the generator for. -/
structure SessionA where
  documents : List (DocType × String)
  errors : List (DocType × String)
  completedDocs : Nat
  progress : ℚ
  progressLog : List ℚ
  attempted : List DocType

/-- One pass of loop A over the remaining selected document types: on
success the content is recorded and `completedDocs`/progress advance
(`(completedDocs / totalDocs) * 100`); on failure only the fixed error
message is recorded — progress is not updated. -/
def runAAux (o : DocType → Except String String) (totalDocs : Nat) :
    List DocType → SessionA → SessionA
  | [], s => s
  | dt :: rest, s =>
    match o dt with
    | .ok content =>
      runAAux o totalDocs rest
        { documents := objInsert s.documents dt content
          errors := s.errors
          completedDocs := s.completedDocs + 1
          progress := ((s.completedDocs + 1 : ℚ) / (totalDocs : ℚ)) * 100
          progressLog :=
            s.progressLog ++ [((s.completedDocs + 1 : ℚ) / (totalDocs : ℚ)) * 100]
          attempted := s.attempted ++ [dt] }
    | .error _ =>
      runAAux o totalDocs rest
        { s with
          errors := objInsert s.errors dt ("Failed to generate " ++ docKey dt)
          attempted := s.attempted ++ [dt] }

/-- Loop A on a selected list, from the freshly reset state
(`setProgress(0)` publishes an initial 0). -/
def runA (o : DocType → Except String String) (selected : List DocType) :
    SessionA :=
  runAAux o selected.length selected
    { documents := [], errors := [], completedDocs := 0, progress := 0,
      progressLog := [0], attempted := [] }

/-- Terminal bundle flag of loop A:
`setIsZipReady(Object.keys(newDocuments).length === totalDocs)`. -/
def isZipReadyA (selected : List DocType) (s : SessionA) : Bool :=
  s.documents.length == selected.length

/-- Session state of the legacy loop B (`page.tsx` first part,
`onSubmit`). -/
structure SessionB where
  documents : List (DocType × String)
  errors : List (DocType × String)
  hasError : Bool
  progress : ℚ
  progressLog : List ℚ
  attempted : List DocType

/-- One pass of loop B with the running `entries()` index: each iteration
first checks `if (hasError) break`; a success records content and publishes
`((index + 1) / DOCUMENT_TYPES.length) * 100`; a failure records the thrown
message and sets `hasError`, so the next iteration stops the loop. -/
def runBAux (o : DocType → Except String String) :
    Nat → List DocType → SessionB → SessionB
  | _, [], s => s
  | i, dt :: rest, s =>
    if s.hasError then s
    else
      match o dt with
      | .ok content =>
        runBAux o (i + 1) rest
          { documents := objInsert s.documents dt content
            errors := s.errors
            hasError := s.hasError
            progress := ((i + 1 : ℚ) / (documentTypesB.length : ℚ)) * 100
            progressLog :=
              s.progressLog ++ [((i + 1 : ℚ) / (documentTypesB.length : ℚ)) * 100]
            attempted := s.attempted ++ [dt] }
      | .error e =>
        runBAux o (i + 1) rest
          { s with
            errors := objInsert s.errors dt e
            hasError := true
            attempted := s.attempted ++ [dt] }

/-- Loop B over the fixed eight-type list, from the freshly reset state. -/
def runB (o : DocType → Except String String) : SessionB :=
  runBAux o 0 documentTypesB
    { documents := [], errors := [], hasError := false, progress := 0,
      progressLog := [0], attempted := [] }

/-- Download control of the legacy page: the button is rendered whenever
`documents` is non-empty and is disabled only by `isDownloading` — there is
no bundle-ready gate in this revision. -/
def downloadButtonEnabledB (documents : List (DocType × String))
    (isDownloading : Bool) : Bool :=
  decide (0 < documents.length) && !isDownloading

/-- Session state of orchestration loop C (`page.tsx` second part,
`onSubmit`). -/
structure SessionC where
  documents : List (DocType × String)
  errors : List (DocType × String)
  completedDocuments : Nat
  progress : ℚ
  progressLog : List ℚ
  hasErrors : Bool
  attempted : List DocType

/-- One pass of loop C: success records content, failure records the thrown
message and sets `hasErrors`; in either case `completedDocuments` advances
and `(completedDocuments / totalDocuments) * 100` is published. -/
def runCAux (o : DocType → Except String String) (totalDocuments : Nat) :
    List DocType → SessionC → SessionC
  | [], s => s
  | dt :: rest, s =>
    let s1 :=
      match o dt with
      | .ok content =>
        { s with
          documents := objInsert s.documents dt content
          attempted := s.attempted ++ [dt] }
      | .error e =>
        { s with
          errors := objInsert s.errors dt e
          hasErrors := true
          attempted := s.attempted ++ [dt] }
    runCAux o totalDocuments rest
      { s1 with
        completedDocuments := s1.completedDocuments + 1
        progress := ((s1.completedDocuments + 1 : ℚ) / (totalDocuments : ℚ)) * 100
        progressLog :=
          s1.progressLog ++
            [((s1.completedDocuments + 1 : ℚ) / (totalDocuments : ℚ)) * 100] }

/-- `DOCUMENT_TYPES.filter(doc => selectedDocs.has(doc.key))`: the selected
list in registry order. -/
def selectedListC (sel : DocType → Bool) : List DocType :=
  allDocTypes.filter sel

/-- Loop C over the selection, from the freshly reset state. -/
def runC (o : DocType → Except String String) (sel : DocType → Bool) :
    SessionC :=
  runCAux o (selectedListC sel).length (selectedListC sel)
    { documents := [], errors := [], completedDocuments := 0, progress := 0,
      progressLog := [0], hasErrors := false, attempted := [] }

/-- Terminal bundle flag of loop C: `setIsZipReady(!hasErrors)`. -/
def isZipReadyC (s : SessionC) : Bool :=
  !s.hasErrors

/-- Deterministic bundle file name of each document type
(the `documentFiles` table in `zip.ts`). -/
def fileNameOf : DocType → String
  | .prd => "Project_Requirements.md"
  | .appFlow => "Application_Flow.md"
  | .techStack => "Technology_Stack.md"
  | .frontend => "Frontend_Guidelines.md"
  | .backend => "Backend_Structure.md"
  | .cursorRules => "Cursor_Rules.md"
  | .implementation => "Implementation_Plan.md"
  | .bestPractices => "Best_Practices.md"
  | .promptGuide => "Prompt_Guide.md"

/-- The `documentFiles` mapping of `zip.ts`, in its source order. -/
def documentFiles : List (DocType × String) :=
  [(.prd, "Project_Requirements.md"),
   (.appFlow, "Application_Flow.md"),
   (.techStack, "Technology_Stack.md"),
   (.frontend, "Frontend_Guidelines.md"),
   (.backend, "Backend_Structure.md"),
   (.cursorRules, "Cursor_Rules.md"),
   (.implementation, "Implementation_Plan.md"),
   (.bestPractices, "Best_Practices.md"),
   (.promptGuide, "Prompt_Guide.md")]

/-- The archive produced by the assembler: one named folder holding named
text files. -/
structure Archive where
  folderName : String
  files : List (String × String)
deriving DecidableEq, Repr

/-- `JSZip.folder`: returns the (nullable) new folder handle; it always
succeeds for a fresh archive. -/
def zipFolder (name : String) : Option String :=
  some name

/-- `createKnowledgeBaseZip` (`zip.ts`): create the `Knowledge Base`
folder (throwing if the handle were null), then walk `documentFiles` and
add one file per entry whose content is truthy; the archive is generated
regardless of how many files were added — there is no emptiness check. -/
def createKnowledgeBaseZip (documents : DocType → Option String) :
    Except String Archive :=
  match zipFolder "Knowledge Base" with
  | none => .error "Failed to create Knowledge Base folder"
  | some folder =>
    .ok
      { folderName := folder
        files :=
          documentFiles.filterMap (fun p =>
            (documents p.1).bind (fun content =>
              if content == "" then none else some (p.2, content))) }

/-- Inserting a fresh key appends it at the end, as in a JavaScript object. -/
theorem objInsert_of_not_mem {m : List (DocType × String)} {k : DocType}
    {v : String} (h : k ∉ m.map Prod.fst) :
    objInsert m k v = m ++ [(k, v)] := by
  simp [objInsert, h]

/-- Every entry of an updated object is either an old entry or the new
binding. -/
theorem mem_of_mem_objInsert {m : List (DocType × String)} {k a : DocType}
    {v b : String} (h : (a, b) ∈ objInsert m k v) :
    (a, b) ∈ m ∨ (a = k ∧ b = v) := by
  unfold objInsert at h
  split at h
  · rcases List.mem_map.mp h with ⟨p, hp, he⟩
    by_cases hk : p.1 = k
    · simp [hk] at he
      exact Or.inr ⟨he.1.symm, he.2.symm⟩
    · simp [hk] at he
      exact Or.inl (he ▸ hp)
  · rcases List.mem_append.mp h with h1 | h1
    · exact Or.inl h1
    · simp at h1
      exact Or.inr h1

/-- Generic key extraction: if the per-element image determines membership
by a predicate, mapping first components over the `filterMap` is the
`filter`. -/
theorem map_fst_filterMap {f : DocType → Option (DocType × String)}
    {p : DocType → Bool}
    (hf : ∀ dt, Option.map Prod.fst (f dt) = if p dt then some dt else none) :
    ∀ l : List DocType, (l.filterMap f).map Prod.fst = l.filter p := by
  intro l
  induction l with
  | nil => rfl
  | cons dt rest ih =>
    have h := hf dt
    cases hfd : f dt with
    | none =>
      rw [hfd] at h
      by_cases hp : p dt = true
      · simp [hp] at h
      · simp [List.filterMap_cons, hfd, List.filter_cons, hp, ih]
    | some q =>
      rw [hfd] at h
      by_cases hp : p dt = true
      · simp [hp] at h
        simp [List.filterMap_cons, hfd, List.filter_cons, hp, ih, h]
      · simp [hp] at h
  
/-- The generator invocations of loop A: every element of the remaining
list is attempted, in order. -/
theorem runAAux_attempted (o : DocType → Except String String) (t : Nat) :
    ∀ (l : List DocType) (s : SessionA),
      (runAAux o t l s).attempted = s.attempted ++ l := by
  intro l
  induction l with
  | nil => intro s; simp [runAAux]
  | cons dt rest ih =>
    intro s
    cases h : o dt with
    | ok c => simp [runAAux, h, ih]
    | error e => simp [runAAux, h, ih]

/-- The generator invocations of loop C: every element of the remaining
list is attempted, in order. -/
theorem runCAux_attempted (o : DocType → Except String String) (t : Nat) :
    ∀ (l : List DocType) (s : SessionC),
      (runCAux o t l s).attempted = s.attempted ++ l := by
  intro l
  induction l with
  | nil => intro s; simp [runCAux]
  | cons dt rest ih =>
    intro s
    cases h : o dt with
    | ok c => simp [runCAux, h, ih]
    | error e => simp [runCAux, h, ih]

/-- Result-map shape of loop A over fresh, duplicate-free selections: the
success map collects exactly the succeeding types with their content, the
error map exactly the failing types with the fixed message, both in
selection order. -/
theorem runAAux_maps (o : DocType → Except String String) (t : Nat) :
    ∀ (l : List DocType) (s : SessionA), l.Nodup →
      (∀ dt ∈ l, dt ∉ s.documents.map Prod.fst) →
      (∀ dt ∈ l, dt ∉ s.errors.map Prod.fst) →
      (runAAux o t l s).documents
        = s.documents ++ l.filterMap (fun dt =>
            match o dt with
            | .ok c => some (dt, c)
            | .error _ => none) ∧
      (runAAux o t l s).errors
        = s.errors ++ l.filterMap (fun dt =>
            match o dt with
            | .ok _ => none
            | .error _ => some (dt, "Failed to generate " ++ docKey dt)) := by
  intro l
  induction l with
  | nil => intro s _ _ _; simp [runAAux]
  | cons dt rest ih =>
    intro s hnd hdoc herr
    have hndr : rest.Nodup := (List.nodup_cons.mp hnd).2
    have hdtr : dt ∉ rest := (List.nodup_cons.mp hnd).1
    cases h : o dt with
    | ok c =>
      have hfresh : dt ∉ s.documents.map Prod.fst := hdoc dt (by simp)
      have hins : objInsert s.documents dt c = s.documents ++ [(dt, c)] :=
        objInsert_of_not_mem hfresh
      have hdoc2 : ∀ d ∈ rest, d ∉ (s.documents ++ [(dt, c)]).map Prod.fst := by
        intro d hd
        simp only [List.map_append, List.mem_append]
        rintro (hmem | hmem)
        · exact hdoc d (by simp [hd]) hmem
        · simp at hmem
          exact hdtr (hmem ▸ hd)
      have := ih { documents := s.documents ++ [(dt, c)], errors := s.errors,
                   completedDocs := s.completedDocs + 1,
                   progress := ((s.completedDocs + 1 : ℚ) / (t : ℚ)) * 100,
                   progressLog := s.progressLog ++
                     [((s.completedDocs + 1 : ℚ) / (t : ℚ)) * 100],
                   attempted := s.attempted ++ [dt] }
        hndr hdoc2 (fun d hd => herr d (by simp [hd]))
      constructor
      · rw [show runAAux o t (dt :: rest) s = _ from rfl]
        simp only [runAAux, h, hins]
        rw [this.1]
        simp [List.filterMap_cons, h]
      · simp only [runAAux, h, hins]
        rw [this.2]
        simp [List.filterMap_cons, h]
    | error e =>
      have hfresh : dt ∉ s.errors.map Prod.fst := herr dt (by simp)
      have hins : objInsert s.errors dt ("Failed to generate " ++ docKey dt)
          = s.errors ++ [(dt, "Failed to generate " ++ docKey dt)] :=
        objInsert_of_not_mem hfresh
      have herr2 : ∀ d ∈ rest,
          d ∉ (s.errors ++ [(dt, "Failed to generate " ++ docKey dt)]).map Prod.fst := by
        intro d hd
        simp only [List.map_append, List.mem_append]
        rintro (hmem | hmem)
        · exact herr d (by simp [hd]) hmem
        · simp at hmem
          exact hdtr (hmem ▸ hd)
      have := ih { s with
                   errors := s.errors ++ [(dt, "Failed to generate " ++ docKey dt)],
                   attempted := s.attempted ++ [dt] }
        hndr (fun d hd => hdoc d (by simp [hd])) herr2
      constructor
      · simp only [runAAux, h, hins]
        rw [this.1]
        simp [List.filterMap_cons, h]
      · simp only [runAAux, h, hins]
        rw [this.2]
        simp [List.filterMap_cons, h]

/-- Result-map shape of loop C over fresh, duplicate-free selections: the
success map collects exactly the succeeding types with their content, the
error map exactly the failing types with the thrown message, both in
selection order. -/
theorem runCAux_maps (o : DocType → Except String String) (t : Nat) :
    ∀ (l : List DocType) (s : SessionC), l.Nodup →
      (∀ dt ∈ l, dt ∉ s.documents.map Prod.fst) →
      (∀ dt ∈ l, dt ∉ s.errors.map Prod.fst) →
      (runCAux o t l s).documents
        = s.documents ++ l.filterMap (fun dt =>
            match o dt with
            | .ok c => some (dt, c)
            | .error _ => none) ∧
      (runCAux o t l s).errors
        = s.errors ++ l.filterMap (fun dt =>
            match o dt with
            | .ok _ => none
            | .error e => some (dt, e)) := by
  intro l
  induction l with
  | nil => intro s _ _ _; simp [runCAux]
  | cons dt rest ih =>
    intro s hnd hdoc herr
    have hndr : rest.Nodup := (List.nodup_cons.mp hnd).2
    have hdtr : dt ∉ rest := (List.nodup_cons.mp hnd).1
    cases h : o dt with
    | ok c =>
      have hfresh : dt ∉ s.documents.map Prod.fst := hdoc dt (by simp)
      have hins : objInsert s.documents dt c = s.documents ++ [(dt, c)] :=
        objInsert_of_not_mem hfresh
      have hdoc2 : ∀ d ∈ rest, d ∉ (s.documents ++ [(dt, c)]).map Prod.fst := by
        intro d hd
        simp only [List.map_append, List.mem_append]
        rintro (hmem | hmem)
        · exact hdoc d (by simp [hd]) hmem
        · simp at hmem
          exact hdtr (hmem ▸ hd)
      have hrec := ih { s with
                        documents := s.documents ++ [(dt, c)],
                        attempted := s.attempted ++ [dt],
                        completedDocuments := s.completedDocuments + 1,
                        progress := ((s.completedDocuments + 1 : ℚ) / (t : ℚ)) * 100,
                        progressLog := s.progressLog ++
                          [((s.completedDocuments + 1 : ℚ) / (t : ℚ)) * 100] }
        hndr hdoc2 (fun d hd => herr d (by simp [hd]))
      constructor
      · simp only [runCAux, h, hins]
        rw [hrec.1]
        simp [List.filterMap_cons, h]
      · simp only [runCAux, h, hins]
        rw [hrec.2]
        simp [List.filterMap_cons, h]
    | error e =>
      have hfresh : dt ∉ s.errors.map Prod.fst := herr dt (by simp)
      have hins : objInsert s.errors dt e = s.errors ++ [(dt, e)] :=
        objInsert_of_not_mem hfresh
      have herr2 : ∀ d ∈ rest, d ∉ (s.errors ++ [(dt, e)]).map Prod.fst := by
        intro d hd
        simp only [List.map_append, List.mem_append]
        rintro (hmem | hmem)
        · exact herr d (by simp [hd]) hmem
        · simp at hmem
          exact hdtr (hmem ▸ hd)
      have hrec := ih { s with
                        errors := s.errors ++ [(dt, e)],
                        hasErrors := true,
                        attempted := s.attempted ++ [dt],
                        completedDocuments := s.completedDocuments + 1,
                        progress := ((s.completedDocuments + 1 : ℚ) / (t : ℚ)) * 100,
                        progressLog := s.progressLog ++
                          [((s.completedDocuments + 1 : ℚ) / (t : ℚ)) * 100] }
        hndr (fun d hd => hdoc d (by simp [hd])) herr2
      constructor
      · simp only [runCAux, h, hins]
        rw [hrec.1]
        simp [List.filterMap_cons, h]
      · simp only [runCAux, h, hins]
        rw [hrec.2]
        simp [List.filterMap_cons, h]

/-- The terminal error flag of loop C is set exactly when some remaining
document type fails. -/
theorem runCAux_hasErrors (o : DocType → Except String String) (t : Nat) :
    ∀ (l : List DocType) (s : SessionC),
      (runCAux o t l s).hasErrors
        = (s.hasErrors || l.any (fun dt => !(o dt).isOk)) := by
  intro l
  induction l with
  | nil => intro s; simp [runCAux]
  | cons dt rest ih =>
    intro s
    cases h : o dt with
    | ok c => simp [runCAux, h, ih, Except.isOk, Except.toBool]
    | error e => simp [runCAux, h, ih, Except.isOk, Except.toBool]

/-- Loop C advances its completion counter on every attempt. -/
theorem runCAux_completed (o : DocType → Except String String) (t : Nat) :
    ∀ (l : List DocType) (s : SessionC),
      (runCAux o t l s).completedDocuments = s.completedDocuments + l.length := by
  intro l
  induction l with
  | nil => intro s; simp [runCAux]
  | cons dt rest ih =>
    intro s
    cases h : o dt with
    | ok c => simp [runCAux, h, ih]; omega
    | error e => simp [runCAux, h, ih]; omega

/-- Terminal progress of loop C over a non-empty remaining list. -/
theorem runCAux_progress_final (o : DocType → Except String String) (t : Nat) :
    ∀ (l : List DocType) (s : SessionC), l ≠ [] →
      (runCAux o t l s).progress
        = ((s.completedDocuments + l.length : ℚ) / (t : ℚ)) * 100 := by
  intro l
  induction l with
  | nil => intro s h; exact absurd rfl h
  | cons dt rest ih =>
    intro s _
    rcases Decidable.em (rest = []) with hr | hr
    · subst hr
      cases h : o dt with
      | ok c => simp [runCAux, h]
      | error e => simp [runCAux, h]
    · cases h : o dt with
      | ok c =>
        simp only [runCAux, h]
        rw [ih _ hr]
        simp only [List.length_cons]
        push_cast
        ring
      | error e =>
        simp only [runCAux, h]
        rw [ih _ hr]
        simp only [List.length_cons]
        push_cast
        ring

/-- Every entry of the success map of loop C records an oracle success. -/
theorem runCAux_mem_documents (o : DocType → Except String String) (t : Nat) :
    ∀ (l : List DocType) (s : SessionC) (dt : DocType) (c : String),
      (dt, c) ∈ (runCAux o t l s).documents →
      (dt, c) ∈ s.documents ∨ o dt = .ok c := by
  intro l
  induction l with
  | nil => intro s dt c h; exact Or.inl (by simpa [runCAux] using h)
  | cons d rest ih =>
    intro s dt c h
    cases hd : o d with
    | ok cc =>
      simp only [runCAux, hd] at h
      rcases ih _ dt c h with hmem | hok
      · rcases mem_of_mem_objInsert hmem with hmem2 | ⟨he1, he2⟩
        · exact Or.inl hmem2
        · subst he1; subst he2
          exact Or.inr hd
      · exact Or.inr hok
    | error e =>
      simp only [runCAux, hd] at h
      rcases ih _ dt c h with hmem | hok
      · exact Or.inl hmem
      · exact Or.inr hok

/-- Appending a value bounding every current entry keeps a published list
non-decreasing. -/
theorem chain_le_append_singleton {l : List ℚ} {v : ℚ}
    (hc : List.Chain' (· ≤ ·) l) (hb : ∀ x ∈ l, x ≤ v) :
    List.Chain' (· ≤ ·) (l ++ [v]) := by
  rw [List.chain'_append]
  refine ⟨hc, List.chain'_singleton v, ?_⟩
  intro x hx y hy
  simp at hy
  subst hy
  exact hb x (List.mem_of_mem_getLast? hx)

/-- A completion fraction grows with the completion count. -/
theorem fractionStepLe {a b c : ℚ} (hab : a ≤ b) (hc : 0 ≤ c) :
    a / c * 100 ≤ b / c * 100 :=
  mul_le_mul_of_nonneg_right (div_le_div_of_nonneg_right hab hc) (by norm_num)

/-- The progress values published by loop A are non-decreasing, given the
invariant that all previously published values are bounded by the current
completion fraction. -/
theorem runAAux_progress_mono (o : DocType → Except String String) (t : Nat) :
    ∀ (l : List DocType) (s : SessionA),
      List.Chain' (· ≤ ·) s.progressLog →
      (∀ x ∈ s.progressLog, x ≤ ((s.completedDocs : ℚ) / (t : ℚ)) * 100) →
      List.Chain' (· ≤ ·) (runAAux o t l s).progressLog := by
  intro l
  induction l with
  | nil => intro s hc _; simpa [runAAux] using hc
  | cons dt rest ih =>
    intro s hc hb
    have hstep : ((s.completedDocs : ℚ) / (t : ℚ)) * 100
        ≤ ((s.completedDocs + 1 : ℚ) / (t : ℚ)) * 100 :=
      fractionStepLe (by norm_num) (by positivity)
    cases h : o dt with
    | ok c =>
      simp only [runAAux, h]
      refine ih _ ?_ ?_
      · exact chain_le_append_singleton hc (fun x hx => le_trans (hb x hx) hstep)
      · intro x hx
        rcases List.mem_append.mp hx with hx1 | hx1
        · exact le_trans (hb x hx1) (by push_cast; exact hstep)
        · simp at hx1
          subst hx1
          push_cast
          exact le_refl _
    | error e =>
      simp only [runAAux, h]
      exact ih _ hc hb

/-- The progress values published by loop C are non-decreasing. -/
theorem runCAux_progress_mono (o : DocType → Except String String) (t : Nat) :
    ∀ (l : List DocType) (s : SessionC),
      List.Chain' (· ≤ ·) s.progressLog →
      (∀ x ∈ s.progressLog, x ≤ ((s.completedDocuments : ℚ) / (t : ℚ)) * 100) →
      List.Chain' (· ≤ ·) (runCAux o t l s).progressLog := by
  intro l
  induction l with
  | nil => intro s hc _; simpa [runCAux] using hc
  | cons dt rest ih =>
    intro s hc hb
    have hstep : ((s.completedDocuments : ℚ) / (t : ℚ)) * 100
        ≤ ((s.completedDocuments + 1 : ℚ) / (t : ℚ)) * 100 :=
      fractionStepLe (by norm_num) (by positivity)
    have hnext : ∀ x ∈ s.progressLog ++ [((s.completedDocuments + 1 : ℚ) / (t : ℚ)) * 100],
        x ≤ ((s.completedDocuments + 1 : ℚ) / (t : ℚ)) * 100 := by
      intro x hx
      rcases List.mem_append.mp hx with hx1 | hx1
      · exact le_trans (hb x hx1) hstep
      · simp at hx1
        subst hx1
        exact le_refl _
    have hchain := chain_le_append_singleton hc
      (fun x hx => le_trans (hb x hx) hstep)
    cases h : o dt with
    | ok c =>
      simp only [runCAux, h]
      refine ih _ hchain ?_
      intro x hx
      have := hnext x (by simpa using hx)
      simpa using this
    | error e =>
      simp only [runCAux, h]
      refine ih _ hchain ?_
      intro x hx
      have := hnext x (by simpa using hx)
      simpa using this

/-- The progress values published by the legacy loop B are non-decreasing,
given that all previously published values are bounded by the fraction at
the current iteration index. -/
theorem runBAux_progress_mono (o : DocType → Except String String) :
    ∀ (l : List DocType) (i : Nat) (s : SessionB),
      List.Chain' (· ≤ ·) s.progressLog →
      (∀ x ∈ s.progressLog, x ≤ ((i : ℚ) / (documentTypesB.length : ℚ)) * 100) →
      List.Chain' (· ≤ ·) (runBAux o i l s).progressLog := by
  intro l
  induction l with
  | nil => intro i s hc _; simpa [runBAux] using hc
  | cons dt rest ih =>
    intro i s hc hb
    by_cases he : s.hasError
    · simpa [runBAux, he] using hc
    · have hstep : ((i : ℚ) / (documentTypesB.length : ℚ)) * 100
          ≤ ((i + 1 : ℚ) / (documentTypesB.length : ℚ)) * 100 :=
        fractionStepLe (by norm_num) (by positivity)
      cases h : o dt with
      | ok c =>
        simp only [runBAux]
        rw [if_neg he]
        simp only [h]
        refine ih _ _ ?_ ?_
        · exact chain_le_append_singleton hc (fun x hx => le_trans (hb x hx) hstep)
        · intro x hx
          rcases List.mem_append.mp hx with hx1 | hx1
          · exact le_trans (hb x hx1) (by push_cast; exact hstep)
          · simp at hx1
            subst hx1
            push_cast
            exact le_refl _
      | error e =>
        simp only [runBAux]
        rw [if_neg he]
        simp only [h]
        refine ih _ _ hc ?_
        intro x hx
        exact le_trans (hb x hx) (by push_cast; exact hstep)

/-- Oracle fixture: the first document type fails, every later type would
succeed. -/
def oracleFailFirst : DocType → Except String String
  | .prd => .error "Failed to generate documentation"
  | _ => .ok "# Content"

/-- Oracle fixture: `prd` succeeds, `appFlow` fails, the rest would
succeed. -/
def oracleOneFail : DocType → Except String String
  | .appFlow => .error "boom"
  | _ => .ok "# PRD content"

/-- Oracle fixture: every document type succeeds. -/
def oracleAllOk : DocType → Except String String :=
  fun _ => .ok "# Content"

/-- Selection fixture: `prd` and `techStack`. -/
def selectTwo : DocType → Bool :=
  fun dt => dt == DocType.prd || dt == DocType.techStack

/-- Every document type is a key of the prompt registry. -/
theorem mem_allDocTypes (dt : DocType) : dt ∈ allDocTypes := by
  cases dt <;> decide

/-- Claim C1, counterexample: in the legacy loop (`page.tsx` first part,
lines 103–127), a failure terminates the iteration early. With an oracle
failing the first document type, the run attempts only `prd`; `appFlow`
remains selected after the failure and is never attempted, contradicting
the claim that after any failure the loop still attempts every remaining
document type. -/
theorem c1_counterexample :
    (oracleFailFirst DocType.prd).isOk = false ∧
    (runB oracleFailFirst).attempted = [DocType.prd] ∧
    DocType.appFlow ∈ documentTypesB ∧
    DocType.appFlow ∉ (runB oracleFailFirst).attempted := by
  refine ⟨rfl, rfl, by decide, by decide⟩

/-- Claim C1, amended: in the selection-enabled loops (`route.ts` second
part, lines 177–188, and `page.tsx` second part, lines 367–385), every
selected document type is attempted in order whatever the per-type
outcomes — a failure never terminates those iterations early; the legacy
loop of `page.tsx` lines 103–127 instead stops before attempting any
document type after the first failure. -/
theorem c1_partial_failure_tolerance (o : DocType → Except String String)
    (selected : List DocType) (sel : DocType → Bool) :
    (runA o selected).attempted = selected ∧
    (runC o sel).attempted = selectedListC sel := by
  constructor
  · simpa [runA] using runAAux_attempted o selected.length selected
      { documents := [], errors := [], completedDocs := 0, progress := 0,
        progressLog := [0], attempted := [] }
  · simpa [runC] using runCAux_attempted o (selectedListC sel).length
      (selectedListC sel)
      { documents := [], errors := [], completedDocuments := 0, progress := 0,
        progressLog := [0], hasErrors := false, attempted := [] }

/-- Claim C2, counterexample: the legacy page (`page.tsx` first part, lines
226–238) has no bundle-ready gate. After a terminated run in which `prd`
succeeded and `appFlow` failed, the error map is non-empty and yet the
Knowledge-Base download button is rendered and enabled, so the combined
bundle is not withheld despite a failure. -/
theorem c2_counterexample :
    (runB oracleOneFail).errors = [(DocType.appFlow, "boom")] ∧
    (runB oracleOneFail).documents = [(DocType.prd, "# PRD content")] ∧
    downloadButtonEnabledB (runB oracleOneFail).documents false = true := by
  refine ⟨rfl, rfl, rfl⟩

/-- Claim C2, amended: in the selection-enabled revisions the bundle-ready
flag is true exactly when every selected document type succeeded — loop A
computes it from the success count, loop C from the error flag — and every
successful content is individually exposed in the success map either way;
the legacy page of `page.tsx` first part has no such flag and enables the
download whenever at least one document succeeded, even after failures. -/
theorem c2_bundle_ready_iff (o : DocType → Except String String)
    (selected : List DocType) (hnd : selected.Nodup) :
    (isZipReadyA selected (runA o selected) = true ↔
      ∀ dt ∈ selected, (o dt).isOk = true) ∧
    (∀ dt c, dt ∈ selected → o dt = .ok c →
      (dt, c) ∈ (runA o selected).documents) ∧
    (∀ sel, isZipReadyC (runC o sel) = true ↔
      ∀ dt ∈ selectedListC sel, (o dt).isOk = true) ∧
    (∀ sel dt c, dt ∈ selectedListC sel → o dt = .ok c →
      (dt, c) ∈ (runC o sel).documents) := by
  have hmapsA := runAAux_maps o selected.length selected
    { documents := [], errors := [], completedDocs := 0, progress := 0,
      progressLog := [0], attempted := [] }
    hnd (by simp) (by simp)
  have hdocsA : (runA o selected).documents
      = selected.filterMap (fun dt =>
          match o dt with
          | .ok c => some (dt, c)
          | .error _ => none) := by
    simpa [runA] using hmapsA.1
  have hkeysA : (runA o selected).documents.map Prod.fst
      = selected.filter (fun dt => (o dt).isOk) := by
    rw [hdocsA]
    exact map_fst_filterMap
      (by intro dt; cases h : o dt <;> simp [h, Except.isOk, Except.toBool])
      selected
  have hnodAll : allDocTypes.Nodup := by decide
  refine ⟨?_, ?_, ?_, ?_⟩
  · simp only [isZipReadyA, beq_iff_eq]
    have hlen : (runA o selected).documents.length
        = (selected.filter (fun dt => (o dt).isOk)).length := by
      rw [← List.length_map ((runA o selected).documents) Prod.fst, hkeysA]
    rw [hlen]
    exact List.filter_length_eq_length
  · intro dt c hdt hok
    rw [hdocsA]
    exact List.mem_filterMap.mpr ⟨dt, hdt, by simp [hok]⟩
  · intro sel
    have hze : isZipReadyC (runC o sel)
        = !((selectedListC sel).any fun dt => !(o dt).isOk) := by
      simp [isZipReadyC, runC, runCAux_hasErrors]
    rw [hze]
    simp
  · intro sel dt c hdt hok
    have hmapsC := runCAux_maps o (selectedListC sel).length (selectedListC sel)
      { documents := [], errors := [], completedDocuments := 0, progress := 0,
        progressLog := [0], hasErrors := false, attempted := [] }
      (hnodAll.filter sel) (by simp) (by simp)
    have hdocsC : (runC o sel).documents
        = (selectedListC sel).filterMap (fun dt =>
            match o dt with
            | .ok c => some (dt, c)
            | .error _ => none) := by
      simpa [runC] using hmapsC.1
    rw [hdocsC]
    exact List.mem_filterMap.mpr ⟨dt, hdt, by simp [hok]⟩

/-- Claim C2 witness: with an all-success oracle over a two-type selection,
the bundle-ready flag of loop A is true. -/
theorem c2_bundle_ready_iff_witness :
    List.Nodup [DocType.prd, DocType.techStack] ∧
    isZipReadyA [DocType.prd, DocType.techStack]
      (runA oracleAllOk [DocType.prd, DocType.techStack]) = true :=
  ⟨by decide,
   (c2_bundle_ready_iff oracleAllOk [DocType.prd, DocType.techStack]
      (by decide)).1.mpr (fun dt _ => rfl)⟩

/-- Claim C3, counterexample: in the legacy loop (`page.tsx` first part),
after a run over the fixed eight-type list in which the first type failed,
the union of the success and failure maps has a single entry — the seven
remaining selected types are omitted, contradicting the exactly-N-entries
invariant. -/
theorem c3_counterexample :
    ((runB oracleFailFirst).documents.map Prod.fst ++
      (runB oracleFailFirst).errors.map Prod.fst).length = 1 ∧
    documentTypesB.length = 8 ∧ (1 : Nat) ≠ 8 := by
  refine ⟨rfl, rfl, by decide⟩

/-- Claim C3, amended: in the selection-enabled loops, the keys of the
success map and of the failure map together are a permutation of the
selected list — exactly N entries, one per selected type, none in both
maps, none omitted; in the legacy loop the types after the first failure
are omitted. -/
theorem c3_result_partition (o : DocType → Except String String)
    (selected : List DocType) (hnd : selected.Nodup) :
    List.Perm ((runA o selected).documents.map Prod.fst ++
      (runA o selected).errors.map Prod.fst) selected ∧
    (runA o selected).documents.length + (runA o selected).errors.length
      = selected.length ∧
    (∀ dt, ¬(dt ∈ (runA o selected).documents.map Prod.fst ∧
      dt ∈ (runA o selected).errors.map Prod.fst)) ∧
    (∀ sel, List.Perm ((runC o sel).documents.map Prod.fst ++
      (runC o sel).errors.map Prod.fst) (selectedListC sel)) ∧
    (∀ sel dt, ¬(dt ∈ (runC o sel).documents.map Prod.fst ∧
      dt ∈ (runC o sel).errors.map Prod.fst)) := by
  have hmapsA := runAAux_maps o selected.length selected
    { documents := [], errors := [], completedDocs := 0, progress := 0,
      progressLog := [0], attempted := [] }
    hnd (by simp) (by simp)
  have hkeysA : (runA o selected).documents.map Prod.fst
      = selected.filter (fun dt => (o dt).isOk) := by
    have hdocsA : (runA o selected).documents
        = selected.filterMap (fun dt =>
            match o dt with
            | .ok c => some (dt, c)
            | .error _ => none) := by
      simpa [runA] using hmapsA.1
    rw [hdocsA]
    exact map_fst_filterMap
      (by intro dt; cases h : o dt <;> simp [h, Except.isOk, Except.toBool])
      selected
  have herrsA : (runA o selected).errors.map Prod.fst
      = selected.filter (fun dt => !(o dt).isOk) := by
    have he : (runA o selected).errors
        = selected.filterMap (fun dt =>
            match o dt with
            | .ok _ => none
            | .error _ => some (dt, "Failed to generate " ++ docKey dt)) := by
      simpa [runA] using hmapsA.2
    rw [he]
    exact map_fst_filterMap
      (by intro dt; cases h : o dt <;> simp [h, Except.isOk, Except.toBool])
      selected
  have hpermA : List.Perm ((runA o selected).documents.map Prod.fst ++
      (runA o selected).errors.map Prod.fst) selected := by
    rw [hkeysA, herrsA]
    exact List.filter_append_perm (fun dt => (o dt).isOk) selected
  have hnodAll : allDocTypes.Nodup := by decide
  refine ⟨hpermA, ?_, ?_, ?_, ?_⟩
  · have := hpermA.length_eq
    simpa [List.length_append, List.length_map] using this
  · intro dt ⟨h1, h2⟩
    rw [hkeysA] at h1
    rw [herrsA] at h2
    have v1 := (List.mem_filter.mp h1).2
    have v2 := (List.mem_filter.mp h2).2
    simp at v1 v2
    rw [v2] at v1
    exact absurd v1 (by decide)
  · intro sel
    have hmapsC := runCAux_maps o (selectedListC sel).length (selectedListC sel)
      { documents := [], errors := [], completedDocuments := 0, progress := 0,
        progressLog := [0], hasErrors := false, attempted := [] }
      (hnodAll.filter sel) (by simp) (by simp)
    have hkeysC : (runC o sel).documents.map Prod.fst
        = (selectedListC sel).filter (fun dt => (o dt).isOk) := by
      have hd : (runC o sel).documents
          = (selectedListC sel).filterMap (fun dt =>
              match o dt with
              | .ok c => some (dt, c)
              | .error _ => none) := by
        simpa [runC] using hmapsC.1
      rw [hd]
      exact map_fst_filterMap
        (by intro dt; cases h : o dt <;> simp [h, Except.isOk, Except.toBool])
        (selectedListC sel)
    have herrsC : (runC o sel).errors.map Prod.fst
        = (selectedListC sel).filter (fun dt => !(o dt).isOk) := by
      have he : (runC o sel).errors
          = (selectedListC sel).filterMap (fun dt =>
              match o dt with
              | .ok _ => none
              | .error e => some (dt, e)) := by
        simpa [runC] using hmapsC.2
      rw [he]
      exact map_fst_filterMap
        (by intro dt; cases h : o dt <;> simp [h, Except.isOk, Except.toBool])
        (selectedListC sel)
    rw [hkeysC, herrsC]
    exact List.filter_append_perm (fun dt => (o dt).isOk) (selectedListC sel)
  · intro sel dt ⟨h1, h2⟩
    have hmapsC := runCAux_maps o (selectedListC sel).length (selectedListC sel)
      { documents := [], errors := [], completedDocuments := 0, progress := 0,
        progressLog := [0], hasErrors := false, attempted := [] }
      (hnodAll.filter sel) (by simp) (by simp)
    have hd : (runC o sel).documents
        = (selectedListC sel).filterMap (fun dt =>
            match o dt with
            | .ok c => some (dt, c)
            | .error _ => none) := by
      simpa [runC] using hmapsC.1
    have he : (runC o sel).errors
        = (selectedListC sel).filterMap (fun dt =>
            match o dt with
            | .ok _ => none
            | .error e => some (dt, e)) := by
      simpa [runC] using hmapsC.2
    rw [hd] at h1
    rw [he] at h2
    rcases List.mem_map.mp h1 with ⟨p1, hp1, hfst1⟩
    rcases List.mem_map.mp h2 with ⟨p2, hp2, hfst2⟩
    rcases List.mem_filterMap.mp hp1 with ⟨a1, _, hfa1⟩
    rcases List.mem_filterMap.mp hp2 with ⟨a2, _, hfa2⟩
    cases h1' : o a1 with
    | ok c1 =>
      rw [h1'] at hfa1
      simp at hfa1
      cases h2' : o a2 with
      | ok c2 => rw [h2'] at hfa2; simp at hfa2
      | error e2 =>
        rw [h2'] at hfa2
        simp at hfa2
        have ha1 : a1 = dt := by rw [← hfst1, ← hfa1]
        have ha2 : a2 = dt := by rw [← hfst2, ← hfa2]
        rw [ha1] at h1'
        rw [ha2] at h2'
        rw [h1'] at h2'
        exact absurd h2' (by simp)
    | error e1 => rw [h1'] at hfa1; simp at hfa1

/-- Claim C3 witness: on a concrete duplicate-free two-type selection the
key partition of loop A is a permutation of the selection. -/
theorem c3_result_partition_witness :
    List.Nodup [DocType.prd, DocType.techStack] ∧
    List.Perm ((runA oracleAllOk [DocType.prd, DocType.techStack]).documents.map
        Prod.fst ++
      (runA oracleAllOk [DocType.prd, DocType.techStack]).errors.map Prod.fst)
      [DocType.prd, DocType.techStack] :=
  ⟨by decide,
   (c3_result_partition oracleAllOk [DocType.prd, DocType.techStack]
      (by decide)).1⟩

/-- Claim C4, counterexample: loop A (`route.ts` second part, lines
177–188) advances progress only on success. On a terminated run over
`[prd, techStack]` in which `prd` failed and `techStack` succeeded, every
selected type was attempted (the run is terminal) yet the published
progress is 50, not 100. -/
theorem c4_counterexample :
    (runA oracleFailFirst [DocType.prd, DocType.techStack]).attempted
      = [DocType.prd, DocType.techStack] ∧
    (runA oracleFailFirst [DocType.prd, DocType.techStack]).progress = 50 ∧
    (50 : ℚ) ≠ 100 := by
  refine ⟨rfl, ?_, by norm_num⟩
  simp [runA, runAAux, oracleFailFirst]
  norm_num

/-- Claim C4, amended: in every revision the published progress sequence
is monotonically non-decreasing; loop C, which counts every attempt,
terminates at exactly 100 percent for any non-empty selection, whereas
loops A and B count only successes, so their terminal progress is the
success fraction and stays below 100 percent when any document type
fails. -/
theorem c4_progress_semantics (o : DocType → Except String String)
    (selected : List DocType) (sel : DocType → Bool) :
    List.Chain' (· ≤ ·) (runA o selected).progressLog ∧
    List.Chain' (· ≤ ·) (runB o).progressLog ∧
    List.Chain' (· ≤ ·) (runC o sel).progressLog ∧
    (selectedListC sel ≠ [] → (runC o sel).progress = 100) := by
  refine ⟨?_, ?_, ?_, ?_⟩
  · refine runAAux_progress_mono o selected.length selected _ (by simp) ?_
    intro x hx
    simp only [List.mem_singleton] at hx
    subst hx
    positivity
  · refine runBAux_progress_mono o documentTypesB 0 _ (by simp) ?_
    intro x hx
    simp only [List.mem_singleton] at hx
    subst hx
    positivity
  · refine runCAux_progress_mono o (selectedListC sel).length (selectedListC sel)
      _ (by simp) ?_
    intro x hx
    simp only [List.mem_singleton] at hx
    subst hx
    positivity
  · intro hne
    have hlen : (selectedListC sel).length ≠ 0 := by
      simpa [List.length_eq_zero] using hne
    rw [runC, runCAux_progress_final o (selectedListC sel).length
      (selectedListC sel) _ hne]
    simp only [Nat.cast_zero, zero_add]
    rw [div_self (by exact_mod_cast hlen)]
    norm_num

/-- Claim C4 witness: with every document type selected and an all-success
oracle, loop C terminates at exactly 100 percent. -/
theorem c4_progress_semantics_witness :
    selectedListC (fun _ => true) ≠ [] ∧
    (runC oracleAllOk (fun _ => true)).progress = 100 :=
  ⟨by decide,
   (c4_progress_semantics oracleAllOk [] (fun _ => true)).2.2.2 (by decide)⟩

/-- A valid request body fixture, as in the spec example. -/
def sampleBody : GenBody :=
  { description := some "A task management web app for small teams",
    projectType := some "web", documentType := some "prd" }

/-- The same fixture in the field naming of the legacy route. -/
def sampleOldBody : OldRouteBody :=
  { description := some "A task management web app for small teams",
    type := some "web", documentType := some "prd" }

/-- The legacy-route fixture with an unknown document-type identifier. -/
def unknownOldBody : OldRouteBody :=
  { description := some "A task management web app for small teams",
    type := some "web", documentType := some "bogus" }

/-- A successful route response fixture. -/
def sampleResponse : RouteResult :=
  genRoutePOST (some "sk-test") sampleBody (.ok (some "Hello"))

/-- Claim C5, counterexample: the only wall-clock timeout in the source is
the client-side 90-second abort in `page.tsx` second part; when it fires,
the resulting failure message is `Request timed out. Please try again.`,
not `timed out`, and the server route produced no 504 — the concrete
response it guards here has status 200. -/
theorem c5_counterexample :
    generateDocumentC true sampleResponse
      = .error "Request timed out. Please try again." ∧
    "Request timed out. Please try again." ≠ "timed out" ∧
    sampleResponse.status = 200 ∧
    sampleResponse.status ≠ 504 := by
  refine ⟨rfl, by decide, rfl, by decide⟩

/-- Claim C5, amended: the client-side fetch of the selection-enabled page
is guarded by a 90-second wall-clock timeout; on expiry the call yields a
failure whose message is `Request timed out. Please try again.` (surfaced
in the error map, not as an HTTP status). The server route applies no
timeout of its own: its response status is 504 only when the upstream API
error itself carried status 504, and a successful or otherwise-failing
upstream call never produces 504. -/
theorem c5_timeout_semantics (r : RouteResult) (key : Option String)
    (body : GenBody) (st : Option Nat) (m : String) :
    generateDocumentC true r = .error "Request timed out. Please try again." ∧
    ((genRoutePOST key body (.apiError st m)).status = 504 → st = some 504) ∧
    (∀ c, (genRoutePOST key body (.ok c)).status ≠ 504) ∧
    (∀ m2, (genRoutePOST key body (.otherError m2)).status ≠ 504) := by
  refine ⟨rfl, ?_, ?_, ?_⟩
  · intro h
    unfold genRoutePOST at h
    split at h
    · simp at h
    · split at h
      · simp at h
      · split at h
        · cases st with
          | none => simp at h
          | some n =>
            simp at h
            simp [h]
        · simp at h
  · intro c h
    unfold genRoutePOST at h
    split at h
    · simp at h
    · split at h
      · simp at h
      · split at h
        · simp at h
        · simp at h
  · intro m2 h
    unfold genRoutePOST at h
    split at h
    · simp at h
    · split at h
      · simp at h
      · split at h
        · simp at h
        · simp at h

/-- Claim C5 witness: a 504 response arises exactly by echoing an upstream
error that already carried status 504; and the concrete timeout failure
carries the literal client message. -/
theorem c5_timeout_semantics_witness :
    (genRoutePOST (some "sk-test") sampleBody
      (.apiError (some 504) "Gateway timeout")).status = 504 ∧
    (some 504 : Option Nat) = some 504 ∧
    generateDocumentC true sampleResponse
      = .error "Request timed out. Please try again." :=
  ⟨rfl,
   (c5_timeout_semantics sampleResponse (some "sk-test") sampleBody
      (some 504) "Gateway timeout").2.1 rfl,
   (c5_timeout_semantics sampleResponse (some "sk-test") sampleBody
      (some 504) "Gateway timeout").1⟩

/-- Claim C6, counterexample: the legacy route (`route.ts` first part,
lines 11–29) never checks the credential; processed with the key absent, a
valid request still triggers exactly one upstream call, and the caller
receives the generic message `Failed to generate document`, not a
configuration-specific one. -/
theorem c6_counterexample :
    (oldRoutePOST none sampleOldBody
      (.otherError "Request failed with status code 401")).upstreamCalls = 1 ∧
    (1 : Nat) ≠ 0 ∧
    (oldRoutePOST none sampleOldBody
      (.otherError "Request failed with status code 401")).error
      = some "Failed to generate document" := by
  refine ⟨rfl, by decide, rfl⟩

/-- Claim C6, amended: the zod-validated route checks the credential right
after validation — with the key absent it makes no upstream call for any
body, and any valid body receives HTTP 500 with the configuration-specific
message `OpenAI API key is not configured`; the legacy route performs no
such check and calls upstream regardless, answering with a generic 500. -/
theorem c6_missing_credential (body : GenBody) (up : UpstreamOutcome) :
    (genRoutePOST none body up).upstreamCalls = 0 ∧
    (∀ v, zodParse body = some v →
      (genRoutePOST none body up).status = 500 ∧
      (genRoutePOST none body up).error
        = some "OpenAI API key is not configured") := by
  constructor
  · unfold genRoutePOST
    cases hz : zodParse body with
    | none => rfl
    | some v => rfl
  · intro v hz
    unfold genRoutePOST
    rw [hz]
    exact ⟨rfl, rfl⟩

/-- Claim C6 witness: the concrete valid body is accepted by the schema
and, with the key absent, receives the configuration error without any
upstream call. -/
theorem c6_missing_credential_witness :
    zodParse sampleBody
      = some { description := "A task management web app for small teams",
               projectType := ProjType.web, documentType := DocType.prd } ∧
    (genRoutePOST none sampleBody (.ok (some "Hello"))).status = 500 ∧
    (genRoutePOST none sampleBody (.ok (some "Hello"))).error
      = some "OpenAI API key is not configured" ∧
    (genRoutePOST none sampleBody (.ok (some "Hello"))).upstreamCalls = 0 :=
  ⟨rfl,
   ((c6_missing_credential sampleBody (.ok (some "Hello"))).2 _ rfl).1,
   ((c6_missing_credential sampleBody (.ok (some "Hello"))).2 _ rfl).2,
   (c6_missing_credential sampleBody (.ok (some "Hello"))).1⟩

/-- An HTTP-failing or empty-content response is never turned into a
success by the selection-enabled client. -/
theorem generateDocumentC_reject (r : RouteResult)
    (h : r.ok = false ∨ r.content = some "") :
    (generateDocumentC false r).isOk = false := by
  unfold generateDocumentC
  rcases h with h | h
  · simp [h, Except.isOk, Except.toBool]
  · by_cases ho : r.ok = false
    · simp [ho, Except.isOk, Except.toBool]
    · simp [ho, h, truthy, Except.isOk, Except.toBool]

/-- With an empty upstream content, the zod route returns either a non-2xx
status or a 200 response whose content is the empty string. -/
theorem genRoutePOST_empty_content (key : Option String) (body : GenBody)
    (c : Option String) (hc : c.getD "" = "") :
    (genRoutePOST key body (.ok c)).ok = false ∨
    (genRoutePOST key body (.ok c)).content = some "" := by
  unfold genRoutePOST
  split
  · left; rfl
  · split
    · left; rfl
    · split
      · right
        simp [hc]
      · left; rfl

/-- Claim C7, counterexample: the zod route (`unnamed/part_000` lines
272–275) coerces an absent upstream message content to the empty string
and returns it with HTTP 200 — a success-classified response carrying no
usable content is handed back to the pipeline at the route boundary. -/
theorem c7_counterexample :
    (genRoutePOST (some "sk-test") sampleBody (.ok none)).status = 200 ∧
    (genRoutePOST (some "sk-test") sampleBody (.ok none)).ok = true ∧
    (genRoutePOST (some "sk-test") sampleBody (.ok none)).content = some "" := by
  refine ⟨rfl, rfl, rfl⟩

/-- Claim C7, amended: the legacy route classifies empty upstream content
as HTTP 500 `Failed to generate content`; the zod route instead answers
HTTP 200 with empty content, and it is the client-side `generateDocument`
that rejects it (`No content received from API`), so end to end an empty
generation always lands in the failure map: the client never returns a
success with empty content, and every entry of the success map of loop C
is a genuine oracle success. -/
theorem c7_empty_content_failure (key : Option String) (body : GenBody)
    (oldBody : OldRouteBody) (o : DocType → Except String String)
    (sel : DocType → Bool) :
    (generateDocumentC false (genRoutePOST key body (.ok none))).isOk = false ∧
    (generateDocumentC false (genRoutePOST key body (.ok (some "")))).isOk
      = false ∧
    (∀ t r c, generateDocumentC t r = .ok c → c ≠ "") ∧
    (∀ dt c, (dt, c) ∈ (runC o sel).documents → o dt = .ok c) ∧
    ((truthy oldBody.description && truthy oldBody.type
        && truthy oldBody.documentType) = true →
      ∀ d, parseDocType (oldBody.documentType.getD "") = some d →
        (oldRoutePOST key oldBody (.ok none)).status = 500 ∧
        (oldRoutePOST key oldBody (.ok none)).error
          = some "Failed to generate content") := by
  refine ⟨?_, ?_, ?_, ?_, ?_⟩
  · exact generateDocumentC_reject _
      (genRoutePOST_empty_content key body none rfl)
  · exact generateDocumentC_reject _
      (genRoutePOST_empty_content key body (some "") rfl)
  · intro t r c h
    unfold generateDocumentC at h
    split at h
    · simp at h
    · split at h
      · simp at h
      · split at h
        · simp at h
        · rename_i htr
          cases hc : r.content with
          | none => rw [hc] at htr; simp [truthy] at htr
          | some s =>
            rw [hc] at h htr
            simp [truthy] at htr
            simp at h
            rw [← h]
            exact htr
  · intro dt c h
    have hstep := runCAux_mem_documents o (selectedListC sel).length
      (selectedListC sel)
      { documents := [], errors := [], completedDocuments := 0, progress := 0,
        progressLog := [0], hasErrors := false, attempted := [] }
      dt c (by simpa [runC] using h)
    rcases hstep with hmem | hok
    · simp at hmem
    · exact hok
  · intro hf d hparse
    unfold oldRoutePOST
    rw [if_neg (by rw [hf]; simp)]
    simp only [hparse]
    simp [truthy]

/-- Claim C7 witness: a non-empty generation passes through the client as
a success with its non-empty content, and the legacy route rejects an
empty upstream content with HTTP 500 for a concrete valid body. -/
theorem c7_empty_content_failure_witness :
    generateDocumentC false
      (genRoutePOST (some "sk-test") sampleBody (.ok (some "Hello")))
      = .ok "Hello" ∧
    "Hello" ≠ "" ∧
    (truthy sampleOldBody.description && truthy sampleOldBody.type
      && truthy sampleOldBody.documentType) = true ∧
    parseDocType (sampleOldBody.documentType.getD "") = some DocType.prd ∧
    (oldRoutePOST (some "sk-test") sampleOldBody (.ok none)).status = 500 :=
  ⟨rfl,
   (c7_empty_content_failure (some "sk-test") sampleBody sampleOldBody
      oracleAllOk selectTwo).2.2.1 false
      (genRoutePOST (some "sk-test") sampleBody (.ok (some "Hello"))) "Hello"
      rfl,
   rfl, rfl,
   ((c7_empty_content_failure (some "sk-test") sampleBody sampleOldBody
      oracleAllOk selectTwo).2.2.2.2 rfl DocType.prd rfl).1⟩

/-- Claim C8, counterexample: the legacy route (`route.ts` line 22) indexes
the registry with an unchecked cast; on the unknown identifier `bogus` the
call to the undefined entry throws and the catch-all answers a generic
HTTP 500 `Failed to generate document` — not a typed 400 — although no
upstream call is made. -/
theorem c8_counterexample :
    (oldRoutePOST (some "sk-test") unknownOldBody (.ok (some "Hi"))).status
      = 500 ∧
    (500 : Nat) ≠ 400 ∧
    (oldRoutePOST (some "sk-test") unknownOldBody (.ok (some "Hi"))).error
      = some "Failed to generate document" ∧
    (oldRoutePOST (some "sk-test") unknownOldBody
      (.ok (some "Hi"))).upstreamCalls = 0 := by
  refine ⟨rfl, by decide, rfl, rfl⟩

/-- Claim C8, amended: an unknown document-type identifier never reaches
the upstream API in any revision; the zod-validated route rejects it with
HTTP 400 `Invalid request data` before any call, while the legacy route
throws on the undefined registry entry and yields a generic HTTP 500, also
before any call — neither proceeds with an undefined prompt. -/
theorem c8_unknown_document_type (key : Option String) (up : UpstreamOutcome)
    (d t s : String) (hs : parseDocType s = none) :
    ((genRoutePOST key ⟨some d, some t, some s⟩ up).status = 400 ∧
     (genRoutePOST key ⟨some d, some t, some s⟩ up).error
       = some "Invalid request data" ∧
     (genRoutePOST key ⟨some d, some t, some s⟩ up).upstreamCalls = 0) ∧
    (d ≠ "" → t ≠ "" → s ≠ "" →
      (oldRoutePOST key ⟨some d, some t, some s⟩ up).status = 500 ∧
      (oldRoutePOST key ⟨some d, some t, some s⟩ up).upstreamCalls = 0) := by
  have hz : zodParse ⟨some d, some t, some s⟩ = none := by
    cases hp : parseProjType t with
    | none => simp [zodParse, hs, hp]
    | some pt => simp [zodParse, hs, hp]
  constructor
  · simp [genRoutePOST, hz]
  · intro hd ht hsne
    unfold oldRoutePOST
    rw [if_neg (by simp [truthy, hd, ht, hsne])]
    simp [hs]

/-- Claim C8 witness: the identifier `bogus` is outside the enumerated
set; the zod route answers 400 and the legacy route makes no upstream
call. -/
theorem c8_unknown_document_type_witness :
    parseDocType "bogus" = none ∧
    (genRoutePOST (some "sk-test")
      ⟨some "A task management web app for small teams", some "web",
       some "bogus"⟩ (.ok (some "Hi"))).status = 400 ∧
    (oldRoutePOST (some "sk-test") unknownOldBody
      (.ok (some "Hi"))).upstreamCalls = 0 :=
  ⟨rfl,
   (c8_unknown_document_type (some "sk-test") (.ok (some "Hi"))
      "A task management web app for small teams" "web" "bogus" rfl).1.1,
   ((c8_unknown_document_type (some "sk-test") (.ok (some "Hi"))
      "A task management web app for small teams" "web" "bogus" rfl).2
      (by decide) (by decide) (by decide)).2⟩

/-- The file-name table of the assembler pairs each document type with its
deterministic name, in registry order. -/
theorem documentFiles_eq :
    documentFiles = allDocTypes.map (fun dt => (dt, fileNameOf dt)) := rfl

/-- The deterministic file names are pairwise distinct. -/
theorem fileNameOf_injective (a b : DocType) (h : fileNameOf a = fileNameOf b) :
    a = b := by
  revert h
  cases a <;> cases b <;> decide

/-- Each type-name pair is an entry of the table. -/
theorem mem_documentFiles (dt : DocType) : (dt, fileNameOf dt) ∈ documentFiles := by
  cases dt <;> decide

/-- Claim C9, counterexample: applied to the empty mapping, the assembler
does not fail — there is no emptiness check in `createKnowledgeBaseZip`;
it produces an archive holding an empty `Knowledge Base` folder. -/
theorem c9_counterexample :
    createKnowledgeBaseZip (fun _ => none)
      = .ok { folderName := "Knowledge Base", files := [] } ∧
    (createKnowledgeBaseZip (fun _ => none)).isOk = true := by
  refine ⟨rfl, rfl⟩

/-- Claim C9, amended: the assembler never fails — on the empty mapping it
returns an archive with an empty `Knowledge Base` folder rather than an
assembly error — and for any mapping whose contents are non-empty strings
(as produced by the pipeline) it deterministically emits a
`Knowledge Base` folder holding exactly one file per mapped document type,
named by the fixed table. -/
theorem c9_bundle_assembler (m : DocType → Option String)
    (hm : ∀ dt c, m dt = some c → c ≠ "") :
    ∃ fs, createKnowledgeBaseZip m
        = .ok { folderName := "Knowledge Base", files := fs } ∧
      fs.map Prod.fst
        = ((allDocTypes.filter fun dt => (m dt).isSome).map fileNameOf) ∧
      (∀ dt c, m dt = some c → (fileNameOf dt, c) ∈ fs) ∧
      (∀ dt, m dt = none → fileNameOf dt ∉ fs.map Prod.fst) := by
  have hfs : createKnowledgeBaseZip m
      = .ok { folderName := "Knowledge Base",
              files := documentFiles.filterMap (fun p =>
                (m p.1).bind (fun content =>
                  if content == "" then none else some (p.2, content))) } := rfl
  have key : ∀ l : List DocType,
      ((l.map (fun dt => (dt, fileNameOf dt))).filterMap (fun p =>
          (m p.1).bind (fun content =>
            if content == "" then none else some (p.2, content)))).map Prod.fst
        = (l.filter fun dt => (m dt).isSome).map fileNameOf := by
    intro l
    induction l with
    | nil => rfl
    | cons dt rest ih =>
      cases hmd : m dt with
      | none =>
        simp only [List.map_cons, List.filterMap_cons, List.filter_cons, hmd,
          Option.isSome_none, Option.none_bind]
        simpa using ih
      | some c =>
        have hc : (c == "") = false := by
          have := hm dt c hmd
          simpa using this
        simp only [List.map_cons, List.filterMap_cons, List.filter_cons, hmd,
          Option.isSome_some, Option.some_bind, hc]
        simp only [Bool.false_eq_true, if_false, List.map_cons]
        rw [ih]
        simp
  have hmapfst : (documentFiles.filterMap (fun p =>
      (m p.1).bind (fun content =>
        if content == "" then none else some (p.2, content)))).map Prod.fst
      = (allDocTypes.filter fun dt => (m dt).isSome).map fileNameOf := by
    rw [documentFiles_eq]
    exact key allDocTypes
  refine ⟨_, hfs, hmapfst, ?_, ?_⟩
  · intro dt c hmc
    have hc : (c == "") = false := by
      have := hm dt c hmc
      simpa using this
    have hne : c ≠ "" := hm dt c hmc
    exact List.mem_filterMap.mpr
      ⟨(dt, fileNameOf dt), mem_documentFiles dt, by simp [hmc, hc, hne]⟩
  · intro dt hnone hmem
    rw [hmapfst] at hmem
    rcases List.mem_map.mp hmem with ⟨dt2, hdt2, hname⟩
    have : dt2 = dt := fileNameOf_injective dt2 dt hname
    subst this
    have := (List.mem_filter.mp hdt2).2
    rw [hnone] at this
    simp at this

/-- Bundle fixture: a single generated document. -/
def bundleSample : DocType → Option String :=
  fun dt => if dt = DocType.prd then some "# PRD" else none

/-- Claim C9 witness: the non-empty single-document mapping satisfies the
non-empty-content hypothesis and assembles into a `Knowledge Base` folder
with exactly its one deterministically named file. -/
theorem c9_bundle_assembler_witness :
    (∀ dt c, bundleSample dt = some c → c ≠ "") ∧
    ∃ fs, createKnowledgeBaseZip bundleSample
        = .ok { folderName := "Knowledge Base", files := fs } ∧
      fs.map Prod.fst
        = ((allDocTypes.filter fun dt => (bundleSample dt).isSome).map
            fileNameOf) ∧
      (∀ dt c, bundleSample dt = some c → (fileNameOf dt, c) ∈ fs) ∧
      (∀ dt, bundleSample dt = none → fileNameOf dt ∉ fs.map Prod.fst) :=
  by
  have hmhyp : ∀ dt c, bundleSample dt = some c → c ≠ "" := by
    intro dt c h
    cases dt <;> simp [bundleSample] at h
    subst h
    decide
  exact ⟨hmhyp, c9_bundle_assembler bundleSample hmhyp⟩
